import Mathlib

/-!
Verification of the Dehn-Thurston train track rewrite engine
(`dehn_thurston_tt.py`).

The train track is embedded as the structure `TT` mirroring the Python
object state: `gluing` is `_gluing_list` (the list at index `2*(s-1)` holds
the outgoing branches of switch `s`, the one at `2*(s-1)+1` those of `-s`),
`bepStart`/`bepEnd` are the two rows of `_branch_endpoint`, and `measure`
is the optional `_measure` array.  Operations of the base `TrainTrack`
class (adjacency accessors, `fold`, `unzip_pos`, `change_switch_orientation`),
whose code is not part of this file's repository, are modelled from the
specification; every such definition carries a doc comment starting with
`Modelled from the spec:`.  Exceptions (Python assertion failures, key
errors, unzips that exhaust the measure) are represented by `Except` with
the error type `TTErr`; a `.error` result models a Python exception, so a
`.ok` result models a call that returns normally.
-/

/-- LEFT side marker, mirroring `LEFT = 0` in the source. -/
def SIDE_LEFT : Nat := 0

/-- RIGHT side marker, mirroring `RIGHT = 1` in the source. -/
def SIDE_RIGHT : Nat := 1

/-- UP collapse type, mirroring `UP = 0`. -/
def C_UP : Nat := 0

/-- TWO_SIDED collapse type, mirroring `TWO_SIDED = 1`. -/
def C_TWO_SIDED : Nat := 1

/-- The opposite side, mirroring the Python idiom `(start_side+1)%2`. -/
def oppSide (s : Nat) : Nat := (s + 1) % 2

/-- Python slice `l[i:]` for an arbitrary integer index `i`. -/
def pySliceFrom (i : Int) (l : List Int) : List Int :=
  if 0 ≤ i then l.drop i.toNat
  else l.drop (l.length - min (-i).toNat l.length)

/-- Python slice `l[:i]` for an arbitrary integer index `i`. -/
def pySliceTo (i : Int) (l : List Int) : List Int :=
  if 0 ≤ i then l.take i.toNat
  else l.take (l.length - min (-i).toNat l.length)

/-- Python `l.index(x)`: position of the first occurrence of `x`,
returning `l.length` when `x` is absent (the callers turn that into an
error, mirroring Python's `ValueError`). -/
def idxOfI (l : List Int) (x : Int) : Nat :=
  match l with
  | [] => 0
  | y :: ys => if y = x then 0 else idxOfI ys x + 1

/-- Python `l.insert(i, x)` for a nonnegative position (clamped to the
length, as in Python). -/
def pyInsert (i : Nat) (x : Int) (l : List Int) : List Int :=
  l.take i ++ x :: l.drop i

/-- Remove the element at a nonnegative position. -/
def removeAt (i : Nat) (l : List Int) : List Int :=
  l.take i ++ l.drop (i + 1)

/-- Read a list entry counted from a given side: position `i` from LEFT is
`l[i]`, from RIGHT it is `l[-1-i]`, with default `0` out of range. -/
def sideGetD (l : List Int) (i : Nat) (side : Nat) : Int :=
  if side = SIDE_LEFT then l.getD i 0 else l.getD (l.length - 1 - i) 0

/-- Errors of the engine: each constructor stands for one Python exception
site.  `posAssert` is the `assert(pos==0)` opening
`unzip_with_collapse_no_measure` for the UP collapse type, `mirrorAssert`
the TWO_SIDED mirror-pair assertion next to it, `collapsedAssert` the
`assert(collapsed_branch != -unzip_branch)`, `unzipPosErr` an unzip whose
cut exhausts the measures on the far side (or a call on an unmeasured
track, where the measure comparison cannot be made), `indexErr` a failed
`list.index` lookup, `turningErr` the `assert(False)` ending
`get_turning`, `zeroDivErr` Python's division by zero, `loopFuel` the
unzip loop of `unzip_fold_general_twist` failing to terminate, and
`moveTypeAssert` the `assert(elem_move_type(switch) == 1)` preconditions. -/
inductive TTErr where
  | posAssert
  | mirrorAssert
  | collapsedAssert
  | unzipPosErr
  | indexErr
  | turningErr
  | zeroDivErr
  | loopFuel
  | moveTypeAssert
  deriving Repr, DecidableEq

/-- State of a Dehn-Thurston train track, mirroring the mutable Python
object (`_gluing_list`, `_branch_endpoint`, `_measure`). -/
structure TT where
  gluing : List (List Int)
  bepStart : List Int
  bepEnd : List Int
  measure : Option (List Int)
  deriving Repr, DecidableEq

/-- Index of a signed switch inside `_gluing_list`:  switch `s > 0` lives
at `2*(s-1)`, switch `-s` at `2*(s-1)+1`. -/
def glIndex (sw : Int) : Nat :=
  if 0 < sw then 2 * (sw.toNat - 1) else 2 * ((-sw).toNat - 1) + 1

/-- Modelled from the spec: `outgoing_branches(switch)` of the base
adjacency model returns the ordered list of outgoing branches of a signed
switch. -/
def TT.outgoing_branches (tt : TT) (sw : Int) : List Int :=
  tt.gluing.getD (glIndex sw) []

/-- Replace the outgoing list of a signed switch (the in-place mutations
of `outgoing_branches(switch)` in the source become this functional
update). -/
def TT.set_outgoing (tt : TT) (sw : Int) (l : List Int) : TT :=
  { tt with gluing := tt.gluing.set (glIndex sw) l }

/-- Modelled from the spec: `outgoing_branch(switch, index, start_side)`
reads the branch at a position counted from the given side. -/
def TT.outgoing_branch (tt : TT) (sw : Int) (i : Nat) (side : Nat) : Int :=
  sideGetD (tt.outgoing_branches sw) i side

/-- Modelled from the spec: `branch_endpoint(branch)` returns the signed
switch the branch points into, i.e. the switch from which `-branch` goes
out; row 0 of `_branch_endpoint` holds it for negative branches, row 1
for positive ones. -/
def TT.branch_endpoint (tt : TT) (b : Int) : Int :=
  if 0 < b then tt.bepEnd.getD (b.toNat - 1) 0
  else tt.bepStart.getD ((-b).toNat - 1) 0

/-- Modelled from the spec: `_set_endpoint(branch, switch)` updates the
entry read by `branch_endpoint(branch)`. -/
def TT.set_endpoint (tt : TT) (b sw : Int) : TT :=
  if 0 < b then { tt with bepEnd := tt.bepEnd.set (b.toNat - 1) sw }
  else { tt with bepStart := tt.bepStart.set ((-b).toNat - 1) sw }

/-- Modelled from the spec: `is_measured()` reports whether the track
carries a measure. -/
def TT.is_measured (tt : TT) : Bool := tt.measure.isSome

/-- Modelled from the spec: the measure of a branch, `_measure[abs(b)-1]`,
with default `0` when absent. -/
def TT.branch_measure (tt : TT) (b : Int) : Int :=
  (tt.measure.getD []).getD (b.natAbs - 1) 0

/-- Modelled from the spec: `_set_measure(branch, value)` writes
`_measure[abs(branch)-1]` (a no-op on an unmeasured track, where the
callers guard with `is_measured()`). -/
def TT.set_measure (tt : TT) (b : Int) (v : Int) : TT :=
  { tt with measure := tt.measure.map (fun m => m.set (b.natAbs - 1) v) }

/-- Number of switches of the track (half the number of gluing rows). -/
def TT.num_switches (tt : TT) : Nat := tt.gluing.length / 2

/-- Insert a whole list at a nonnegative position, mirroring the Python
slice assignment `l[i:i] = xs` (the position clamps to the length). -/
def pyInsertAll (i : Nat) (xs l : List Int) : List Int :=
  l.take i ++ xs ++ l.drop i

/-- Python `l.index(x)` with the `ValueError` made explicit. -/
def pyIndex (l : List Int) (x : Int) : Except TTErr Nat :=
  if x ∈ l then .ok (idxOfI l x) else .error TTErr.indexErr

/-- The `BranchMap` of the source: a dictionary from unsigned branch
labels to the ordered list of signed branches currently representing
them, kept as an association list. -/
structure BranchMap where
  map : List (Nat × List Int)
  deriving Repr, DecidableEq

/-- Dictionary lookup of `_branch_map[k]`. -/
def BranchMap.lookup (bm : BranchMap) (k : Nat) : Option (List Int) :=
  (bm.map.find? (fun p => p.1 = k)).map Prod.snd

/-- Dictionary update of `_branch_map[k]` (no new key is ever created by
`append`, matching the source). -/
def BranchMap.setKey (bm : BranchMap) (k : Nat) (l : List Int) : BranchMap :=
  ⟨bm.map.map (fun p => if p.1 = k then (k, l) else p)⟩

/-- `BranchMap(branches)`: every unsigned label maps to the singleton of
itself. -/
def BranchMap.ofBranches (bs : List Int) : BranchMap :=
  ⟨bs.map (fun b => (b.natAbs, [(b.natAbs : Int)]))⟩

/-- `branch_list(branch)`: the stored list for a positive branch, its
reversed negation for a negative one; `none` models the `KeyError` on a
label outside the dictionary. -/
def BranchMap.branch_list (bm : BranchMap) (b : Int) : Option (List Int) :=
  if 0 < b then bm.lookup b.toNat
  else (bm.lookup (-b).toNat).map (fun l => (l.map (fun x => -x)).reverse)

/-- `append(append_to, appended_branch)`: extend the stored list of a
positive target on the right, prepend for a negative target; `none`
models the `KeyError` on a missing label. -/
def BranchMap.append (bm : BranchMap) (appendTo appended : Int) :
    Option BranchMap :=
  if 0 < appendTo then do
    let cur ← bm.lookup appendTo.toNat
    let app ← bm.branch_list appended
    some (bm.setKey appendTo.toNat (cur ++ app))
  else do
    let cur ← bm.lookup (-appendTo).toNat
    let app ← bm.branch_list (-appended)
    some (bm.setKey (-appendTo).toNat (app ++ cur))

/-- `get_turning(switch)`: LEFT if the position-0 branches of the two
orientations on the LEFT are mirror, RIGHT if they are so on the RIGHT,
otherwise the `assert(False)` fires. -/
def TT.get_turning (tt : TT) (sw : Int) : Except TTErr Nat :=
  if tt.outgoing_branch sw 0 SIDE_LEFT = -(tt.outgoing_branch (-sw) 0 SIDE_LEFT)
  then .ok SIDE_LEFT
  else if tt.outgoing_branch sw 0 SIDE_RIGHT = -(tt.outgoing_branch (-sw) 0 SIDE_RIGHT)
  then .ok SIDE_RIGHT
  else .error TTErr.turningErr

/-- `elem_move_type(pants_curve)`: 1 when an outgoing branch of the curve
and one of its reverse end on the same signed switch away from the curve
itself, else 2.  The two nested loops of the source become two `any`s. -/
def TT.elem_move_type (tt : TT) (c : Int) : Nat :=
  if (tt.outgoing_branches c).any (fun i =>
      ((tt.branch_endpoint i).natAbs != c.natAbs) &&
      (tt.outgoing_branches (-c)).any (fun j => tt.branch_endpoint j == tt.branch_endpoint i))
  then 1 else 2

/-- `num_curves_on_sides(pants_curve)`: one less than the outgoing counts,
ordered by the turning. -/
def TT.num_curves_on_sides (tt : TT) (c : Int) : Except TTErr (Int × Int) := do
  let ntop : Int := (tt.outgoing_branches c).length
  let nbottom : Int := (tt.outgoing_branches (-c)).length
  let turning ← tt.get_turning c
  if turning = SIDE_LEFT then return (nbottom - 1, ntop - 1)
  else return (ntop - 1, nbottom - 1)

/-- Scan for the unzip position: given the measures on the far side in
cut order and the weight `w` carried by the cut, return the first index
whose running sum exceeds `w`, together with the split `meas1`/`meas2` of
that branch's measure; `none` when the cut exhausts the whole side. -/
def unzipPosScan (ms : List Int) (w : Int) : Option (Nat × Int × Int) :=
  match ms with
  | [] => none
  | m :: rest =>
    if w < m then some (0, w, m - w)
    else (unzipPosScan rest (w - m)).map (fun r => (r.1 + 1, r.2))

/-- The weight carried by the unzip cut: the total measure of the
branches of `switch` at positions `0..pos` counted from `start_side`. -/
def cutWeight (tt : TT) (sw : Int) (pos : Int) (startSide : Nat) : Int :=
  let top := if startSide = SIDE_LEFT then tt.outgoing_branches sw
             else (tt.outgoing_branches sw).reverse
  ((pySliceTo (pos + 1) top).map tt.branch_measure).sum

/-- The measures of the branches of `-switch` in the order the cut meets
them: counted from the side opposite to `start_side`. -/
def farMeasures (tt : TT) (sw : Int) (startSide : Nat) : List Int :=
  (if startSide = SIDE_LEFT then (tt.outgoing_branches (-sw)).reverse
   else tt.outgoing_branches (-sw)).map tt.branch_measure

/-- Modelled from the spec: `unzip_pos(switch, pos, start_side)` of the
base class (its code is not in this repository).  Step 1 of the engine
compares the measure carried by the cut -- the total measure of the
branches at positions `0..pos` from `start_side` -- against the measures
of the branches of `-switch` counted from the opposite side, to find how
far the cut travels; it returns the stopping index with the two parts
`meas1`, `meas2` into which the stopping branch's measure is split.  On
an unmeasured track the comparison has no data and the call fails. -/
def TT.unzip_pos (tt : TT) (sw : Int) (pos : Int) (startSide : Nat) :
    Option (Nat × Int × Int) :=
  unzipPosScan (farMeasures tt sw startSide) (cutWeight tt sw pos startSide)

/-- `unzip_with_collapse_no_measure(switch, pos, unzip_pos, collapse_type,
start_side)`: the combinatorial re-threading of the unzip-and-collapse
move, translated statement by statement from the source (the optional
`branch_map` argument is `None` in every call this development studies,
so its updates are omitted along the `branch_map != None` guard). -/
def TT.unzip_with_collapse_no_measure (tt : TT) (switch : Int) (pos : Int)
    (unzipPos : Nat) (ctype : Nat) (startSide : Nat) : Except TTErr TT := do
  if ctype = C_UP then
    if pos ≠ 0 then throw TTErr.posAssert
  else if ctype = C_TWO_SIDED then
    let pb := if startSide = SIDE_RIGHT then (tt.outgoing_branches switch).getD 0 0
              else (tt.outgoing_branches switch).getLastD 0
    let pb2 := if startSide = SIDE_RIGHT then (tt.outgoing_branches (-switch)).getD 0 0
               else (tt.outgoing_branches (-switch)).getLastD 0
    if pb ≠ -pb2 then throw TTErr.mirrorAssert
  let unzipBranch := tt.outgoing_branch (-switch) unzipPos (oppSide startSide)
  let bottomSwitch := tt.branch_endpoint unzipBranch
  let (tt1, collapsedBranch) :=
    if ctype = C_UP then
      let l := tt.outgoing_branches switch
      if startSide = SIDE_LEFT then (tt.set_outgoing switch (l.drop 1), l.getD 0 0)
      else (tt.set_outgoing switch l.dropLast, l.getLastD 0)
    else (tt, 0)
  let endIndex ← pyIndex (tt1.outgoing_branches bottomSwitch) (-unzipBranch)
  if ctype = C_UP then
    if collapsedBranch = -unzipBranch then throw TTErr.collapsedAssert
    let insertPos := if startSide = SIDE_LEFT then endIndex else endIndex + 1
    let tt2 := tt1.set_outgoing bottomSwitch
      (pyInsert insertPos collapsedBranch (tt1.outgoing_branches bottomSwitch))
    let bottomBranches := tt2.outgoing_branches (-switch)
    let n : Int := bottomBranches.length
    let branchesToMove :=
      if startSide = SIDE_LEFT then pySliceFrom (n - unzipPos) bottomBranches
      else pySliceTo (unzipPos : Int) bottomBranches
    let newBottom :=
      if startSide = SIDE_LEFT then pySliceTo (n - unzipPos) bottomBranches
      else pySliceFrom (unzipPos : Int) bottomBranches
    let tt3 := tt2.set_outgoing (-switch) newBottom
    let topSwitch := tt3.branch_endpoint collapsedBranch
    let k ← pyIndex (tt3.outgoing_branches topSwitch) (-collapsedBranch)
    let insertPos2 := if startSide = SIDE_LEFT then k + 1 else k
    let tt4 := tt3.set_outgoing topSwitch
      (pyInsertAll insertPos2 branchesToMove (tt3.outgoing_branches topSwitch))
    let tt5 := tt4.set_endpoint (-collapsedBranch) bottomSwitch
    return branchesToMove.foldl (fun t b => t.set_endpoint (-b) topSwitch) tt5
  else if ctype = C_TWO_SIDED then
    let top := tt1.outgoing_branches switch
    let n := top.length
    let top1 :=
      if startSide = SIDE_LEFT then
        let branchesToMove := pySliceTo (pos + 1) top
        pySliceFrom (-(n : Int)) (pyInsertAll (top.length - 1) branchesToMove top)
      else
        let branchesToMove := pySliceFrom (-pos - 1) top
        (pyInsertAll 1 branchesToMove top).take n
    let tt2 := tt1.set_outgoing switch top1
    if unzipPos > 0 then
      let topNow := tt2.outgoing_branches switch
      let (collapsed, topAfter) :=
        if startSide = SIDE_LEFT then (topNow.getLastD 0, topNow.dropLast)
        else (topNow.getD 0 0, topNow.drop 1)
      let tt3 := tt2.set_outgoing switch topAfter
      let bot0 := tt3.outgoing_branches (-switch)
      let tt4 := tt3.set_outgoing (-switch)
        (if startSide = SIDE_LEFT then bot0.dropLast else bot0.drop 1)
      let bottom := tt4.outgoing_branches (-switch)
      let m : Int := bottom.length
      let bottom1 :=
        if startSide = SIDE_LEFT then
          collapsed :: pySliceTo m (pySliceFrom (m + 1 - unzipPos) bottom ++ bottom)
        else
          pySliceFrom (-m) (bottom ++ pySliceTo ((unzipPos : Int) - 1) bottom) ++ [collapsed]
      let tt5 := tt4.set_outgoing (-switch) bottom1
      let k ← pyIndex (tt5.outgoing_branches bottomSwitch) (-unzipBranch)
      let insertPos := if startSide = SIDE_LEFT then k else k + 1
      let tt6 := tt5.set_outgoing bottomSwitch
        (pyInsert insertPos (-collapsed) (tt5.outgoing_branches bottomSwitch))
      let tt7 := tt6.set_endpoint (-collapsed) (-switch)
      return tt7.set_endpoint collapsed bottomSwitch
    else return tt2
  else return tt1

/-- `unzip_with_collapse(switch, pos, collapse_type, start_side)`: select
the unzip position from the measures, re-thread combinatorially, then
transport the measure.  The returned value mirrors the Python return
value: `some unzip_pos` after the measure update, `none` for the bare
`return` taken on an unmeasured track. -/
def TT.unzip_with_collapse (tt : TT) (switch : Int) (pos : Int) (ctype : Nat)
    (startSide : Nat) : Except TTErr (TT × Option Nat) := do
  let some (uz, meas1, meas2) := tt.unzip_pos switch pos startSide
    | throw TTErr.unzipPosErr
  let unzipBr := tt.outgoing_branch (-switch) uz (oppSide startSide)
  let collapsedBranch := tt.outgoing_branch switch 0 startSide
  let pantsBranch := tt.outgoing_branch switch 0 (oppSide startSide)
  let tt1 ← tt.unzip_with_collapse_no_measure switch pos uz ctype startSide
  if ¬ tt1.is_measured then return (tt1, none)
  let tt2 :=
    if ctype = C_UP then
      (tt1.set_measure unzipBr meas2).set_measure collapsedBranch meas1
    else if ctype = C_TWO_SIDED then
      if uz = 0 then tt1.set_measure pantsBranch meas2
      else (tt1.set_measure unzipBr meas2).set_measure pantsBranch meas1
    else tt1
  return (tt2, some uz)

/-- Build a track from a gluing specification and an optional measure
array, mirroring the `DehnThurstonTT` constructor (owned by the excluded
parser code): the endpoint rows are filled so that every branch listed as
outgoing from a signed switch has that switch as the endpoint of its
reversal. -/
def mkTT (gl : List (List Int)) (ms : Option (List Int)) : TT :=
  let nb := (gl.map (fun l => (l.map Int.natAbs).foldl max 0)).foldl max 0
  let tt0 : TT := ⟨gl, List.replicate nb 0, List.replicate nb 0, ms⟩
  (List.range (gl.length / 2)).foldl (fun t i =>
    let s : Int := (i : Int) + 1
    let t1 := (t.outgoing_branches s).foldl (fun u b => u.set_endpoint (-b) s) t
    (t1.outgoing_branches (-s)).foldl (fun u b => u.set_endpoint (-b) (-s)) t1) tt0

/-- Modelled from the spec: `fold(switch, folded_branch_index,
fold_onto_index, start_side)` of the base class (its code is not in this
repository).  The branch at `folded_branch_index` is dragged along the
adjacent branch at `fold_onto_index` to the far endpoint of the latter,
where it re-attaches cyclically adjacent to the reversed fold-onto
branch -- just before it in the vertex's cyclic order when the folded
branch sat on its right (in LEFT indexing), just after it otherwise --
and the fold-onto branch absorbs the folded branch's measure, keeping the
measure update consistent with the switch condition. -/
def TT.fold (tt : TT) (switch : Int) (foldedIdx foldOntoIdx : Nat)
    (startSide : Nat) : Except TTErr TT := do
  let l := tt.outgoing_branches switch
  let foldedBranch := sideGetD l foldedIdx startSide
  let foldOntoBranch := sideGetD l foldOntoIdx startSide
  let nextSw := tt.branch_endpoint foldOntoBranch
  let fL := if startSide = SIDE_LEFT then foldedIdx else l.length - 1 - foldedIdx
  let oL := if startSide = SIDE_LEFT then foldOntoIdx else l.length - 1 - foldOntoIdx
  let tt1 := tt.set_outgoing switch (removeAt fL l)
  let tl := tt1.outgoing_branches nextSw
  let k ← pyIndex tl (-foldOntoBranch)
  let (tt2, insSw) :=
    if oL < fL then
      if k = 0 then
        (tt1.set_outgoing (-nextSw) (tt1.outgoing_branches (-nextSw) ++ [foldedBranch]), -nextSw)
      else (tt1.set_outgoing nextSw (pyInsert k foldedBranch tl), nextSw)
    else
      if k + 1 = tl.length then
        (tt1.set_outgoing (-nextSw) (foldedBranch :: tt1.outgoing_branches (-nextSw)), -nextSw)
      else (tt1.set_outgoing nextSw (pyInsert (k + 1) foldedBranch tl), nextSw)
  let tt3 := tt2.set_endpoint (-foldedBranch) insSw
  if tt3.is_measured then
    return tt3.set_measure foldOntoBranch
      (tt3.branch_measure foldOntoBranch + tt3.branch_measure foldedBranch)
  else return tt3

/-- Modelled from the spec: `outgoing_branch_index(switch, branch,
start_side)` returns the position of a branch among the outgoing branches
of a switch, counted from the given side. -/
def TT.outgoing_branch_index (tt : TT) (sw : Int) (b : Int)
    (startSide : Nat) : Except TTErr Nat := do
  let l := tt.outgoing_branches sw
  let i ← pyIndex l b
  if startSide = SIDE_LEFT then return i else return l.length - 1 - i

/-- Modelled from the spec: `change_switch_orientation(switch)` swaps the
two outgoing lists of a switch pair and updates the endpoint entries of
every branch attached there accordingly. -/
def TT.change_switch_orientation (tt : TT) (sw : Int) : TT :=
  let a := tt.outgoing_branches sw
  let b := tt.outgoing_branches (-sw)
  let tt1 := (tt.set_outgoing sw b).set_outgoing (-sw) a
  let tt2 := b.foldl (fun t br => t.set_endpoint (-br) sw) tt1
  a.foldl (fun t br => t.set_endpoint (-br) (-sw)) tt2

/-- Run a fold step `n` times, mirroring the `for i in range(n)` loops of
the twist engine. -/
def foldNE (n : Nat) (f : TT → Except TTErr TT) (tt : TT) : Except TTErr TT :=
  match n with
  | 0 => .ok tt
  | n + 1 => do foldNE n f (← f tt)

/-- State of the unzip loop of `unzip_fold_general_twist`: the track
together with the remaining `good_twists_on_other_side` counter. -/
structure TwistLoopSt where
  tt : TT
  good : Int
  deriving Repr, DecidableEq

/-- Result of running the unzip loop: normal exit, a propagated
exception, or fuel exhaustion (the loop never reached an exit). -/
inductive TwistLoopRes where
  | ok (tt : TT)
  | err (e : TTErr)
  | fuelOut
  deriving Repr, DecidableEq

/-- One iteration of the `while True` loop of
`unzip_fold_general_twist`: unzip TWO_SIDED at position
`min(nother_side, -good) - 1`, add `pos + 1` to the counter, and either
exit (`Sum.inl`), or continue with the updated counter (`Sum.inr`). -/
def twistLoopStep (switch : Int) (turning : Nat) (notherSide : Int)
    (st : TwistLoopSt) : Except TTErr (TT ⊕ TwistLoopSt) := do
  let pos := min notherSide (-st.good) - 1
  let (tt1, r) ← st.tt.unzip_with_collapse switch pos C_TWO_SIDED (oppSide turning)
  let good1 := st.good + pos + 1
  match r with
  | some 0 =>
    if good1 = 0 then return Sum.inl tt1 else return Sum.inr ⟨tt1, good1⟩
  | _ =>
    let uz := r.getD 0
    let b := tt1.outgoing_branch (-switch) 0 turning
    let sw := tt1.branch_endpoint b
    let idx ← tt1.outgoing_branch_index sw (-b) turning
    let tt2 ← tt1.fold sw (idx + 1) idx turning
    let tt3 ← foldNE (uz - 1) (fun t => t.fold (-switch) 1 0 (oppSide turning)) tt2
    let tt4 ← foldNE (-good1).toNat (fun t => t.fold switch 1 0 (oppSide turning)) tt3
    return Sum.inl (tt4.change_switch_orientation switch)

/-- The `while True` loop of `unzip_fold_general_twist`, run on explicit
fuel (the source loop has no bound of its own; `fuelOut` records that the
given number of iterations did not reach an exit). -/
def twistLoop (fuel : Nat) (switch : Int) (turning : Nat) (notherSide : Int)
    (st : TwistLoopSt) : TwistLoopRes :=
  match fuel with
  | 0 => .fuelOut
  | fuel + 1 =>
    match twistLoopStep switch turning notherSide st with
    | .error e => .err e
    | .ok (Sum.inl tt) => .ok tt
    | .ok (Sum.inr st1) => twistLoop fuel switch turning notherSide st1

/-- `unzip_fold_general_twist(pants_curve, twists_on_left,
twists_on_right)`: normalize the twists by full rotations, fold the good
twists on the fixed side, then fold or unzip on the other side.  Python's
floor division and modulo become `Int.fdiv`/`Int.fmod` (with the division
by zero made an explicit error), and the unzip loop runs on fuel
`(-good).toNat + 1`, which the termination theorem below shows sufficient
whenever the other side carries a branch besides the pants branch. -/
def TT.unzip_fold_general_twist (tt : TT) (pantsCurve twistsOnLeft twistsOnRight : Int) :
    Except TTErr TT := do
  let switch := pantsCurve
  let turning ← tt.get_turning pantsCurve
  let (nleft, nright) ← tt.num_curves_on_sides pantsCurve
  let (goodFixed, goodOther, nother) ←
    if turning = SIDE_RIGHT then do
      if nright = 0 then throw TTErr.zeroDivErr
      let numRotations := -(Int.fdiv twistsOnRight nright)
      pure (Int.fmod twistsOnRight nright,
            twistsOnLeft - numRotations * nleft, nleft)
    else do
      if nleft = 0 then throw TTErr.zeroDivErr
      let numRotations := -(Int.fdiv (-twistsOnLeft) nleft)
      pure (Int.fmod (-twistsOnLeft) nleft,
            -(twistsOnRight + numRotations * nright), nright)
  let tt1 ← foldNE goodFixed.toNat (fun t => t.fold (-switch) 1 0 turning) tt
  if goodOther > 0 then
    foldNE goodOther.toNat (fun t => t.fold switch 1 0 turning) tt1
  else
    match twistLoop ((-goodOther).toNat + 1) switch turning nother ⟨tt1, goodOther⟩ with
    | .ok tt2 => return tt2
    | .err e => throw e
    | .fuelOut => throw TTErr.loopFuel

/-- `unzip_fold_pants_twist(pants_curve, power)`: the common twist,
`twists_on_left = 0`, `twists_on_right = power * nright`. -/
def TT.unzip_fold_pants_twist (tt : TT) (pantsCurve : Int) (power : Int) :
    Except TTErr TT := do
  let nright := (← tt.num_curves_on_sides pantsCurve).2
  tt.unzip_fold_general_twist pantsCurve 0 (power * nright)

/-- `torus_boundary_switch(switch)`: follow an outgoing branch to the
neighboring switch of the same torus piece and orient it so the torus is
on its left. -/
def TT.torus_boundary_switch (tt : TT) (switch : Int) : Except TTErr Int := do
  if tt.elem_move_type switch ≠ 1 then throw TTErr.moveTypeAssert
  let l := tt.outgoing_branches switch
  let newSwitch :=
    match l.find? (fun b => (tt.branch_endpoint b).natAbs ≠ switch.natAbs) with
    | some b => tt.branch_endpoint b
    | none => tt.branch_endpoint (l.getLastD 0)
  if (← tt.get_turning newSwitch) = SIDE_LEFT then return -newSwitch
  return newSwitch

/-- `orientation_of_switch_first_move(switch)`: the standard orientation
of the switch for the first elementary move. -/
def TT.orientation_of_switch_first_move (tt : TT) (switch : Int) :
    Except TTErr Int := do
  if tt.elem_move_type switch ≠ 1 then throw TTErr.moveTypeAssert
  let bdySwitch ← tt.torus_boundary_switch switch
  let turning ← tt.get_turning bdySwitch
  let b := if turning = SIDE_RIGHT then tt.outgoing_branch bdySwitch 0 SIDE_LEFT
           else tt.outgoing_branch (-bdySwitch) 1 SIDE_LEFT
  let sw := tt.branch_endpoint b
  if (← tt.get_turning switch) = SIDE_LEFT then return sw
  return -sw

/-- `fold_left_of_pants_curve(bdy_switch, folded_branch_index,
fold_onto_index, inverse)`: a fold with the pants branch excluded from
the caller-visible indexing. -/
def TT.fold_left_of_pants_curve (tt : TT) (bdySwitch : Int)
    (foldedBranchIdx foldOntoIdx : Nat) (inverse : Bool) :
    Except TTErr TT := do
  let startSide := if inverse then SIDE_RIGHT else SIDE_LEFT
  if (← tt.get_turning bdySwitch) = SIDE_RIGHT then
    tt.fold bdySwitch foldedBranchIdx foldOntoIdx startSide
  else
    tt.fold (-bdySwitch) (foldedBranchIdx + 1) (foldOntoIdx + 1) startSide

/-- `unzip_fold_first_move(switch, inverse)`: the type-1 elementary move,
one UP unzip followed by the eight-way case split of the source (the
`branch_map` argument is `None` throughout this development). -/
def TT.unzip_fold_first_move (tt : TT) (switchIn : Int) (inverse : Bool) :
    Except TTErr TT := do
  let switch ← tt.orientation_of_switch_first_move switchIn
  let turning ← tt.get_turning switch
  let twistSign : Int := if inverse then -1 else 1
  let bdySwitch ← tt.torus_boundary_switch switch
  let lamb23 := (tt.outgoing_branches switch).length = 3
  let (tt1, r) ← tt.unzip_with_collapse switch 0 C_UP (oppSide turning)
  match r with
  | some 0 =>
    if lamb23 then
      if (turning = SIDE_LEFT) = (inverse = false) then
        tt1.fold (-switch) 1 2 turning
      else do
        let tt2 ← tt1.fold switch 1 0 (oppSide turning)
        tt2.unzip_fold_general_twist bdySwitch twistSign 0
    else
      if (turning = SIDE_LEFT) = (inverse = false) then do
        let tt2 ← tt1.unzip_fold_general_twist bdySwitch twistSign 0
        let tt3 ← tt2.fold_left_of_pants_curve bdySwitch 0 1 inverse
        tt3.fold_left_of_pants_curve bdySwitch 2 1 inverse
      else do
        let tt2 ← tt1.unzip_fold_general_twist bdySwitch (2 * twistSign) 0
        let tt3 ← tt2.fold_left_of_pants_curve bdySwitch 3 2 inverse
        tt3.fold_left_of_pants_curve bdySwitch 0 1 inverse
  | some 1 =>
    if lamb23 then
      if (turning = SIDE_LEFT) = (inverse = false) then
        tt1.fold (-switch) 0 1 turning
      else do
        let tt2 ← tt1.fold switch 1 0 (oppSide turning)
        tt2.unzip_fold_general_twist bdySwitch twistSign 0
    else
      if (turning = SIDE_LEFT) = (inverse = false) then do
        let tt2 ← tt1.unzip_fold_general_twist bdySwitch twistSign 0
        let tt3 ← tt2.fold_left_of_pants_curve bdySwitch 0 1 inverse
        tt3.fold_left_of_pants_curve bdySwitch 3 2 inverse
      else do
        let tt2 ← tt1.unzip_fold_general_twist bdySwitch (2 * twistSign) 0
        let tt3 ← tt2.fold_left_of_pants_curve bdySwitch 4 3 inverse
        tt3.fold_left_of_pants_curve bdySwitch 0 1 inverse
  | _ => return tt1

/-- `unzip_fold_first_move_inverse(switch)`: three forward moves followed
by a twist of power -1 about the torus boundary switch. -/
def TT.unzip_fold_first_move_inverse (tt : TT) (switch : Int) :
    Except TTErr TT := do
  let tt1 ← tt.unzip_fold_first_move switch false
  let tt2 ← tt1.unzip_fold_first_move switch false
  let tt3 ← tt2.unzip_fold_first_move switch false
  let bdySwitch ← tt3.torus_boundary_switch switch
  tt3.unzip_fold_pants_twist bdySwitch (-1)

deriving instance DecidableEq for Except

/-- The switch-balance condition of the spec: at every switch the sum of
measures of the outgoing branches of the positive orientation equals the
sum for the negative orientation. -/
def balanced (tt : TT) : Bool :=
  (List.range tt.num_switches).all (fun i =>
    ((tt.outgoing_branches ((i : Int) + 1)).map tt.branch_measure).sum
      == ((tt.outgoing_branches (-((i : Int) + 1))).map tt.branch_measure).sum)

/-- The 7-branch one-annulus track of the twist doctests, measured so that
every switch is balanced. -/
def ttBal : TT :=
  mkTT [[1,2,3,4],[-1,-5,-6,-7],[5],[-2],[6],[-3],[7],[-4]] (some [1,2,3,13,2,3,13])

/-- A measured track whose pants curve 1 has no curve besides the pants
branch on its right side (`nother_side = 0`). -/
def ttZeroWidth : TT := mkTT [[1],[-1,-2],[2,3],[-3]] (some [1,1,1])

/-- The lambda-11 track of the first-move doctests, with the measure that
sends the unzip into the pants curve. -/
def ttLambda11 : TT :=
  mkTT [[1,5],[-1,4],[2,-8,9,-7,-9],[-2,-5,6,-4,-6],[7,3],[8,-3]]
    (some [100,20,30,1,1,4,4,4,1])

/-- The track of the first UP-collapse doctest, without a measure. -/
def ttUnmeasured : TT := mkTT [[-1,2,3],[-2,4,-3],[5],[-5,-4,1]] none

/-- The track of the first UP-collapse doctest, with its measure. -/
def ttMeasuredEx : TT := mkTT [[-1,2,3],[-2,4,-3],[5],[-5,-4,1]] (some [11,3,100,11,2])

/-- Run a sequence of `append(target, other)` calls on a `BranchMap`
(`none` as soon as one of them raises a `KeyError`). -/
def applyAppends (ops : List (Int × Int)) (bm : BranchMap) : Option BranchMap :=
  match ops with
  | [] => some bm
  | (t, ob) :: rest => (bm.append t ob).bind (applyAppends rest)

/-- The dictionary reached by the `append` sequence of the source's
doctest. -/
def bmDoctest : BranchMap :=
  ⟨[(2, [-5, 2, -4]), (4, [4]), (5, [5]), (6, [6]), (1, [-5, 2, -4, 1])]⟩

/-- The dictionary after the doctest's first append. -/
def bmDoctest1 : BranchMap :=
  ⟨[(2, [2, -4]), (4, [4]), (5, [5]), (6, [6]), (1, [1])]⟩

/-- The state of the first UP-collapse doctest after the call. -/
def ttAfterUP : TT :=
  ⟨[[2,-1,3],[-2,4,-3],[5],[-5,-4,1]], [-2,1,1,-1,2], [1,-1,-1,-2,-2],
    some [11,3,89,11,2]⟩

/-- The lambda-23 track of the first-move doctests, with the measure
that sends the unzips into the pants curves. -/
def ttLambda23 : TT :=
  mkTT [[1,6,5],[-1,4,-6],[-5,-4,2],[-8,-7,-2],[7,9,3],[-9,8,-3]]
    (some [100,20,30,1,1,4,2,2,1])

/-- The lambda-11 track of the first-move doctests, with the measure
that keeps the unzips out of the pants curves. -/
def ttLambda11b : TT :=
  mkTT [[1,5],[-1,4],[2,-8,9,-7,-9],[-2,-5,6,-4,-6],[7,3],[8,-3]]
    (some [3,20,3,10,10,13,15,15,8])

/-!
Validation of the modelled base-class operations against the source's
doctests.  The definitions of `fold`, `unzip_pos` and
`change_switch_orientation` are modelled from the spec; the following
theorems check them (through the engine translated from the source)
against doctest outputs recorded in `dehn_thurston_tt.py`.
-/

/-- Doctest: `unzip_with_collapse_no_measure(1,0,0,UP,start_side=LEFT)`
on `[[-1,2,3],[-2,4,-3],[5],[-5,-4,1]]`. -/
theorem doctest_up_rethread :
    ttUnmeasured.unzip_with_collapse_no_measure 1 0 0 C_UP SIDE_LEFT
      = .ok ⟨[[2,-1,3],[-2,4,-3],[5],[-5,-4,1]],
             [-2,1,1,-1,2], [1,-1,-1,-2,-2], none⟩ := by decide

/-- Doctest: `unzip_with_collapse_no_measure(1,0,1,UP,start_side=LEFT)`
on the same track: the cut travels past the pants branch. -/
theorem doctest_up_rethread_across :
    ttUnmeasured.unzip_with_collapse_no_measure 1 0 1 C_UP SIDE_LEFT
      = .ok ⟨[[2,3],[-2,4],[5],[-5,-1,-4,1,-3]],
             [-2,1,1,-1,2], [-2,-1,-2,-2,-2], none⟩ := by decide

/-- Doctest: `unzip_with_collapse_no_measure(1,1,2,TWO_SIDED,RIGHT)` on
the left-twisting annulus. -/
theorem doctest_two_sided_rethread_across :
    (mkTT [[1,2,3,4],[-1,-5,-6,-7],[5],[-2],[6],[-3],[7],[-4]]
        none).unzip_with_collapse_no_measure 1 1 2 C_TWO_SIDED SIDE_RIGHT
      = .ok ⟨[[3,4,2],[-6,-7,-5,1],[5],[-2],[6,-1],[-3],[7],[-4]],
             [-1,1,1,1,2,3,4], [3,-2,-3,-4,-1,-1,-1], none⟩ := by decide

/-- Doctest: the two measured UP collapses on
`[[-1,2,3],[-2,4,-3],[5],[-5,-4,1]]` return positions 0 and 1 and move
the measures as recorded. -/
theorem doctest_measured_up :
    (ttMeasuredEx.unzip_with_collapse 1 0 C_UP SIDE_LEFT).map
        (fun p => (p.2, p.1.measure)) = .ok (some 0, some [11,3,89,11,2]) ∧
    ((mkTT [[-1,2,3],[-2,4,-3],[5],[-5,-4,1]]
        (some [100,3,11,100,2])).unzip_with_collapse 1 0 C_UP SIDE_LEFT).map
        (fun p => (p.2, p.1.measure)) = .ok (some 1, some [89,3,11,11,2]) := by
  refine ⟨by decide, by decide⟩

/-- Doctest: `unzip_fold_general_twist(1, 2, 1)` peels 6, 7 and 13 off
the pants branch. -/
theorem doctest_general_twist_peel :
    ((mkTT [[1,2,3,4],[-1,-5,-6,-7],[5],[-2],[6],[-3],[7],[-4]]
        (some [100,2,3,13,5,6,7])).unzip_fold_general_twist 1 2 1).map
      (fun t => (t.gluing, t.measure))
    = .ok ([[1,4,2,3],[-1,-6,-7,-5],[5],[-2],[6],[-3],[7],[-4]],
           some [74,2,3,13,5,6,7]) := by decide

/-- Doctest: `unzip_fold_pants_twist(1, 1)` on the light annulus turns
the track right-turning. -/
theorem doctest_pants_twist_flip :
    ((mkTT [[1,2,3,4],[-1,-5,-6,-7],[5],[-2],[6],[-3],[7],[-4]]
        (some [1,2,3,13,5,6,7])).unzip_fold_pants_twist 1 1).map
      (fun t => (t.gluing, t.measure))
    = .ok ([[-5,-6,-7,1],[2,3,4,-1],[5],[-2],[6],[-3],[7],[-4]],
           some [17,2,3,13,5,6,7]) := by decide

/-- Doctest: the four-step lambda-23 sequence
`first_move(1); first_move(-3); first_move(-3, inverse); first_move(1,
inverse)` restores the track exactly. -/
theorem doctest_first_move_roundtrip_lambda23 :
    (ttLambda23.unzip_fold_first_move 1 false
        >>= fun t => t.unzip_fold_first_move (-3) false
        >>= fun t => t.unzip_fold_first_move (-3) true
        >>= fun t => t.unzip_fold_first_move 1 true) = .ok ttLambda23 := by decide

/-- Doctest: `unzip_fold_first_move(1)` then
`unzip_fold_first_move_inverse(1)` restores the lambda-11 track. -/
theorem doctest_first_move_inverse_formula :
    (ttLambda11b.unzip_fold_first_move 1 false
        >>= fun t => t.unzip_fold_first_move_inverse 1) = .ok ttLambda11b := by decide

/-- C1 counterexample: on an unmeasured track the call does not return
the computed unzip position -- the measure comparison of step 1 has no
measures to compare (and the source's early `return` on
`not self.is_measured()` yields `None` rather than `unzip_pos`), so the
claim's "(measured or not)" fails. -/
theorem unzip_with_collapse_unmeasured_returns_nothing :
    ttUnmeasured.unzip_with_collapse 1 0 C_UP SIDE_LEFT = .error TTErr.unzipPosErr ∧
    ttUnmeasured.is_measured = false := by
  constructor
  · decide
  · decide

/-- C2: on the balanced measured track `ttBal` the single call
`unzip_fold_pants_twist(1, 0)` returns normally but corrupts the gluing
(side 1 becomes `[1,1,2,3]`: branch 4 is lost and branch 1 duplicated),
so the switch-balance condition no longer holds. -/
theorem pants_twist_zero_breaks_balance :
    balanced ttBal = true ∧
    (ttBal.unzip_fold_pants_twist 1 0).map
        (fun t => (balanced t, t.outgoing_branches 1, t.measure))
      = .ok (false, [1,1,2,3], some [1,2,3,13,2,3,13]) := by
  constructor
  · decide
  · decide

/-- C3: `unzip_fold_pants_twist(1, 0)` followed by
`unzip_fold_pants_twist(1, -0)` does not restore `ttBal`; the adjacency
list of switch 1 ends as `[1,1,1,2]` instead of `[1,2,3,4]`, because the
`good_twists_on_other_side > 0` test sends the residual-zero case into
the unzip loop, which garbles the rotation at position `-1`. -/
theorem pants_twist_zero_roundtrip_fails :
    (ttBal.unzip_fold_pants_twist 1 0 >>= fun t => t.unzip_fold_pants_twist 1 (-0))
      ≠ .ok ttBal ∧
    (ttBal.unzip_fold_pants_twist 1 0 >>= fun t => t.unzip_fold_pants_twist 1 (-0)).map
        (fun t => t.outgoing_branches 1)
      = .ok [1,1,1,2] := by
  constructor
  · decide
  · decide

/-- C4: on the lambda-11 configuration `ttLambda11`,
`unzip_fold_first_move(1)` followed by
`unzip_fold_first_move(1, inverse=True)` returns normally but does not
restore the track: switch -2's list ends as `[-2,-6,-5,6,-4]` instead of
`[-2,-5,6,-4,-6]` and the measure of branch 2 as 16 instead of 20,
matching the source's own comment that the inverse only works in cases
A, B and E. -/
theorem first_move_inverse_roundtrip_fails :
    (ttLambda11.unzip_fold_first_move 1 false >>= fun t => t.unzip_fold_first_move 1 true)
      ≠ .ok ttLambda11 ∧
    (ttLambda11.unzip_fold_first_move 1 false >>= fun t => t.unzip_fold_first_move 1 true).map
        (fun t => (t.outgoing_branches (-2), t.measure))
      = .ok ([-2,-6,-5,6,-4], some [100,16,30,1,1,4,4,4,1]) ∧
    ttLambda11.outgoing_branches (-2) = [-2,-5,6,-4,-6] ∧
    ttLambda11.measure = some [100,20,30,1,1,4,4,4,1] := by
  refine ⟨by decide, by decide, by decide, by decide⟩

/-- C7: on the 7-branch twist example with measures `[1,2,3,4,5,6,7]`,
`unzip_fold_general_twist(1, -2, -1)` yields the measures
`[14,2,3,4,5,6,7]` and reorders the cycle of the second signed switch to
`[-1,-7,-5,-6]`. -/
theorem general_twist_concrete_example :
    ((mkTT [[1,2,3,4],[-1,-5,-6,-7],[5],[-2],[6],[-3],[7],[-4]]
        (some [1,2,3,4,5,6,7])).unzip_fold_general_twist 1 (-2) (-1)).map
      (fun t => (t.measure, t.outgoing_branches (-1)))
    = .ok (some [14,2,3,4,5,6,7], [-1,-7,-5,-6]) := by
  decide

/-- C8 counterexample: when the other side carries no branch besides the
pants branch (`nother_side = 0`), an iteration of the unzip loop adds
`pos + 1 = 0` to the counter and reproduces its own state exactly, so
the loop never exits: the claim's "every iteration adds pos + 1 >= 1"
and "it never runs forever" both fail on
`unzip_fold_general_twist(1, 0, 1)` applied to `ttZeroWidth`. -/
theorem twist_loop_zero_width_nonterminating :
    twistLoopStep 1 SIDE_LEFT 0 ⟨ttZeroWidth, -1⟩ = .ok (Sum.inr ⟨ttZeroWidth, -1⟩) ∧
    twistLoop 25 1 SIDE_LEFT 0 ⟨ttZeroWidth, -1⟩ = TwistLoopRes.fuelOut ∧
    ttZeroWidth.unzip_fold_general_twist 1 0 1 = .error TTErr.loopFuel := by
  refine ⟨by decide, by decide, by decide⟩

/-- A `pyIndex` failure is always the `indexErr` exception. -/
theorem pyIndex_error_eq (l : List Int) (x : Int) (e : TTErr)
    (hp : pyIndex l x = .error e) : e = TTErr.indexErr := by
  unfold pyIndex at hp
  split at hp
  · exact absurd hp (by simp)
  · cases hp; rfl

/-- C6: `elem_move_type(pants_curve)` returns 1 exactly when some
outgoing branch of the curve and some outgoing branch of its reverse end
on the same signed switch whose absolute value differs from the curve's
own, and returns 2 exactly otherwise. -/
theorem elem_move_type_characterization (tt : TT) (c : Int) :
    (tt.elem_move_type c = 1 ↔
      ∃ i ∈ tt.outgoing_branches c, ∃ j ∈ tt.outgoing_branches (-c),
        tt.branch_endpoint i = tt.branch_endpoint j ∧
        (tt.branch_endpoint i).natAbs ≠ c.natAbs) ∧
    (tt.elem_move_type c = 2 ↔
      ¬ ∃ i ∈ tt.outgoing_branches c, ∃ j ∈ tt.outgoing_branches (-c),
        tt.branch_endpoint i = tt.branch_endpoint j ∧
        (tt.branch_endpoint i).natAbs ≠ c.natAbs) := by
  have key : ((tt.outgoing_branches c).any (fun i =>
      ((tt.branch_endpoint i).natAbs != c.natAbs) &&
      (tt.outgoing_branches (-c)).any (fun j => tt.branch_endpoint j == tt.branch_endpoint i)) = true)
      ↔ ∃ i ∈ tt.outgoing_branches c, ∃ j ∈ tt.outgoing_branches (-c),
          tt.branch_endpoint i = tt.branch_endpoint j ∧
          (tt.branch_endpoint i).natAbs ≠ c.natAbs := by
    simp only [List.any_eq_true, Bool.and_eq_true, bne_iff_ne, beq_iff_eq]
    constructor
    · rintro ⟨i, hi, hne, j, hj, hej⟩
      exact ⟨i, hi, j, hj, hej.symm, hne⟩
    · rintro ⟨i, hi, j, hj, hej, hne⟩
      exact ⟨i, hi, hne, j, hj, hej.symm⟩
  unfold TT.elem_move_type
  constructor
  · constructor
    · intro h
      split at h
      · exact key.mp (by assumption)
      · omega
    · intro h
      rw [if_pos (key.mpr h)]
  · constructor
    · intro h
      split at h
      · omega
      · intro hex
        rename_i hcond
        exact hcond (key.mpr hex)
    · intro h
      rw [if_neg (fun hc => h (key.mp hc))]

/-- C10: for the UP collapse type, `unzip_with_collapse_no_measure` fails
with its opening `assert(pos == 0)` exactly when `pos != 0`; when
`pos == 0` that assertion passes and the call never reports it. -/
theorem up_collapse_pos_assert_characterization (tt : TT) (switch pos : Int)
    (uz side : Nat) :
    tt.unzip_with_collapse_no_measure switch pos uz C_UP side
        = .error TTErr.posAssert
      ↔ pos ≠ 0 := by
  constructor
  · intro h
    intro hpos
    subst hpos
    unfold TT.unzip_with_collapse_no_measure at h
    by_cases hs : side = SIDE_LEFT <;>
      simp only [hs, ite_true, ite_false, reduceIte, Bind.bind, Except.bind, pure, Except.pure,
        throw, throwThe, MonadExceptOf.throw, ne_eq, not_true_eq_false,
        not_false_eq_true] at h <;>
    · split at h
      · rename_i err heq
        have he := pyIndex_error_eq _ _ _ heq
        subst he
        simp at h
      · split at h
        · simp at h
        · split at h
          · rename_i err heq
            have he := pyIndex_error_eq _ _ _ heq
            subst he
            simp at h
          · simp at h
  · intro h
    unfold TT.unzip_with_collapse_no_measure
    rw [if_pos rfl, if_pos h]
    rfl

/-- Reversing and negating twice is the identity. -/
theorem revneg_revneg (l : List Int) :
    ((l.map (fun x => -x)).reverse.map (fun x => -x)).reverse = l := by
  simp [List.map_reverse, List.map_map, Function.comp]

/-- Reversing and negating a concatenation swaps the two parts. -/
theorem revneg_append (a b : List Int) :
    (((a ++ b).map (fun x => -x)).reverse)
      = ((b.map (fun x => -x)).reverse) ++ ((a.map (fun x => -x)).reverse) := by
  simp

/-- The reversal law holds for every dictionary state: `branch_list`
computes the negative direction from the positive one by reversing and
negating, and that operation is an involution. -/
theorem branch_list_neg (bm : BranchMap) (b : Int) (hb : b ≠ 0) :
    bm.branch_list (-b)
      = (bm.branch_list b).map (fun l => (l.map (fun x => -x)).reverse) := by
  unfold BranchMap.branch_list
  rcases lt_trichotomy b 0 with h | h | h
  · rw [if_pos (by omega), if_neg (by omega)]
    cases bm.lookup (-b).toNat with
    | none => rfl
    | some l => simp [revneg_revneg]
  · exact absurd h hb
  · rw [if_neg (by omega), if_pos h, neg_neg]

/-- After `setKey`, the updated key is found with the new value (when it
was present before). -/
theorem find_setKey_same (m : List (Nat × List Int)) (k : Nat) (l : List Int)
    (h : (m.find? (fun p => p.1 = k)).isSome) :
    (m.map (fun p => if p.1 = k then (k, l) else p)).find? (fun p => p.1 = k)
      = some (k, l) := by
  induction m with
  | nil => simp at h
  | cons p rest ih =>
    by_cases hp : p.1 = k
    · simp [hp, List.find?]
    · rw [List.find?_cons_of_neg _ (by simp [hp])] at h
      simp only [List.map_cons, if_neg hp]
      rw [List.find?_cons_of_neg _ (by simp [hp])]
      exact ih h

/-- `setKey` leaves every other key's entry unchanged. -/
theorem find_setKey_other (m : List (Nat × List Int)) (k k' : Nat) (l : List Int)
    (hk : k' ≠ k) :
    (m.map (fun p => if p.1 = k then (k, l) else p)).find? (fun p => p.1 = k')
      = m.find? (fun p => p.1 = k') := by
  induction m with
  | nil => rfl
  | cons p rest ih =>
    by_cases hp : p.1 = k
    · simp only [List.map_cons, if_pos hp]
      rw [List.find?_cons_of_neg _ (by simp [Ne.symm hk]),
          List.find?_cons_of_neg _ (by simp [hp, Ne.symm hk])]
      exact ih
    · simp only [List.map_cons, if_neg hp]
      by_cases hp' : p.1 = k'
      · rw [List.find?_cons_of_pos _ (by simp [hp']), List.find?_cons_of_pos _ (by simp [hp'])]
      · rw [List.find?_cons_of_neg _ (by simp [hp']), List.find?_cons_of_neg _ (by simp [hp'])]
        exact ih

/-- Lookup of the key just set. -/
theorem lookup_setKey_same (bm : BranchMap) (k : Nat) (l : List Int)
    (h : (bm.lookup k).isSome) : (bm.setKey k l).lookup k = some l := by
  unfold BranchMap.lookup BranchMap.setKey at *
  rw [find_setKey_same bm.map k l (by simpa using h)]
  rfl

/-- Lookup of a key other than the one set. -/
theorem lookup_setKey_other (bm : BranchMap) (k k' : Nat) (l : List Int)
    (hk : k' ≠ k) : (bm.setKey k l).lookup k' = bm.lookup k' := by
  unfold BranchMap.lookup BranchMap.setKey
  rw [find_setKey_other bm.map k k' l hk]


/-- C5: for every `BranchMap` built from a list of branches and mutated
by any sequence of `append` calls, and every signed branch `b` of its
domain, `branch_list(-b)` is the reverse of `branch_list(b)` with every
entry negated (the law holds for every dictionary state, so every
`append` preserves it). -/
theorem branch_list_reversal_invariant (bs : List Int) (ops : List (Int × Int))
    (bm : BranchMap) (b : Int)
    (hreach : applyAppends ops (BranchMap.ofBranches bs) = some bm)
    (hb : b ≠ 0) :
    bm.branch_list (-b)
      = (bm.branch_list b).map (fun l => (l.map (fun x => -x)).reverse) :=
  branch_list_neg bm b hb

/-- C9: `append(t, o)` extends the recorded list of `t` by the recorded
list of `o` on the right, and leaves the recorded lists of every other
label (in both directions) unchanged. -/
theorem append_extends_and_frames (bm bm' : BranchMap) (t o : Int)
    (lt lo : List Int)
    (ht : bm.branch_list t = some lt) (ho : bm.branch_list o = some lo)
    (h0 : t ≠ 0) (ho0 : o ≠ 0)
    (happ : bm.append t o = some bm') :
    bm'.branch_list t = some (lt ++ lo) ∧
    ∀ u : Int, u ≠ 0 → u.natAbs ≠ t.natAbs → bm'.branch_list u = bm.branch_list u := by
  have frame : ∀ (k : Nat) (nl : List Int), bm' = bm.setKey k nl →
      ∀ u : Int, u ≠ 0 → u.natAbs ≠ k →
        bm'.branch_list u = bm.branch_list u := by
    intro k nl hbm u hu hk
    subst hbm
    unfold BranchMap.branch_list
    rcases lt_trichotomy u 0 with h | h | h
    · rw [if_neg (by omega), if_neg (by omega),
        lookup_setKey_other bm k (-u).toNat nl (by omega)]
    · exact absurd h hu
    · rw [if_pos h, if_pos h, lookup_setKey_other bm k u.toNat nl (by omega)]
  rcases lt_trichotomy t 0 with h | h | h
  · unfold BranchMap.append at happ
    rw [if_neg (by omega)] at happ
    rw [show bm.branch_list t = (bm.lookup (-t).toNat).map
          (fun l => (l.map (fun x => -x)).reverse) from by
        unfold BranchMap.branch_list; rw [if_neg (by omega)]] at ht
    cases hx : bm.lookup (-t).toNat with
    | none => rw [hx] at ht; exact absurd ht (by simp)
    | some x =>
      rw [hx] at ht happ
      have hno : bm.branch_list (-o) = some ((lo.map (fun y => -y)).reverse) := by
        rw [branch_list_neg bm o ho0, ho]; rfl
      rw [hno] at happ
      simp only [Option.map_some', Option.some.injEq] at ht
      simp only [Bind.bind, Option.some_bind, Option.some.injEq] at happ
      constructor
      · subst happ
        unfold BranchMap.branch_list
        rw [if_neg (by omega),
          lookup_setKey_same bm (-t).toNat _ (by simp [hx])]
        simp only [Option.map_some', Option.some.injEq]
        rw [revneg_append, revneg_revneg, ht]
      · intro u hu hk
        refine frame (-t).toNat _ happ.symm u hu (by omega)
  · exact absurd h h0
  · unfold BranchMap.append at happ
    rw [if_pos h] at happ
    rw [show bm.branch_list t = bm.lookup t.toNat from by
        unfold BranchMap.branch_list; rw [if_pos h]] at ht
    rw [ht, ho] at happ
    simp only [Bind.bind, Option.some_bind, Option.some.injEq] at happ
    constructor
    · subst happ
      unfold BranchMap.branch_list
      rw [if_pos h, lookup_setKey_same bm t.toNat _ (by simp [ht])]
    · intro u hu hk
      exact frame t.toNat _ happ.symm u hu (by omega)


/-- C5 witness: the reversal law at branch 1 of the doctest dictionary,
reached from `BranchMap([2,-4,5,-6,1])` by the three doctest appends. -/
theorem branch_list_reversal_invariant_witness :
    bmDoctest.branch_list (-1)
      = (bmDoctest.branch_list 1).map (fun l => (l.map (fun x => -x)).reverse) :=
  branch_list_reversal_invariant [2,-4,5,-6,1] [(2,-4),(-2,5),(-1,-2)]
    bmDoctest 1 (by decide) (by decide)


/-- C9 witness: `append(2, -4)` on `BranchMap([2,-4,5,-6,1])` extends the
record of branch 2 to `[2,-4]` and leaves branch 4's record unchanged. -/
theorem append_extends_and_frames_witness :
    bmDoctest1.branch_list 2 = some ([2] ++ [-4]) ∧
    bmDoctest1.branch_list 4 = (BranchMap.ofBranches [2,-4,5,-6,1]).branch_list 4 := by
  refine ⟨(append_extends_and_frames (BranchMap.ofBranches [2,-4,5,-6,1]) bmDoctest1
      2 (-4) [2] [-4] (by decide) (by decide) (by decide) (by decide) (by decide)).1, ?_⟩
  exact (append_extends_and_frames (BranchMap.ofBranches [2,-4,5,-6,1]) bmDoctest1
      2 (-4) [2] [-4] (by decide) (by decide) (by decide) (by decide) (by decide)).2
    4 (by decide) (by decide)

/-- A continue (`Sum.inr`) outcome of the unzip-loop body arises only in
the `unzip_pos == 0` branch: the counter of the next state is the old one
plus `pos + 1 = min(nother_side, -good)`, and it is nonzero (a zero
counter with `unzip_pos == 0` exits the loop instead). -/
theorem twistLoopStep_inr (switch : Int) (turning : Nat) (nother : Int)
    (st st' : TwistLoopSt)
    (h : twistLoopStep switch turning nother st = .ok (Sum.inr st')) :
    st'.good = st.good + min nother (-st.good) ∧ st'.good ≠ 0 := by
  unfold twistLoopStep at h
  dsimp only at h
  cases hu : st.tt.unzip_with_collapse switch (min nother (-st.good) - 1) C_TWO_SIDED
      (oppSide turning) with
  | error e =>
    rw [hu] at h
    exact absurd h (by simp [Bind.bind, Except.bind])
  | ok p =>
    obtain ⟨tt1, r⟩ := p
    rw [hu] at h
    simp only [Bind.bind, Except.bind] at h
    rcases r with _ | n
    · dsimp only at h
      repeat' split at h
      all_goals simp_all [pure, Except.pure]
    · rcases n with _ | n
      · dsimp only at h
        split at h
        · exact absurd h (by simp [pure, Except.pure])
        · simp only [pure, Except.pure, Except.ok.injEq, Sum.inr.injEq] at h
          subst h
          refine ⟨by dsimp only; omega, by dsimp only; assumption⟩
      · try dsimp only at h
        repeat' split at h
        all_goals simp_all [pure, Except.pure]

/-- C8 (amended): whenever the remaining bad-twist counter is negative
and the other side carries at least one branch besides the pants branch,
every continue step of the unzip loop raises the counter by
`min(nother_side, -good) >= 1` without overshooting zero, so the loop
reaches an exit (normal or exceptional) within `-good` iterations: fuel
`(-good).toNat` is never exhausted. -/
theorem twist_loop_terminates (fuel : Nat) (switch : Int) (turning : Nat)
    (nother : Int) (st : TwistLoopSt)
    (hg : st.good < 0) (hn : 1 ≤ nother) (hf : (-st.good).toNat ≤ fuel) :
    twistLoop fuel switch turning nother st ≠ TwistLoopRes.fuelOut := by
  induction fuel generalizing st with
  | zero => exfalso; omega
  | succ n ih =>
    rw [twistLoop]
    cases hstep : twistLoopStep switch turning nother st with
    | error e => simp
    | ok v =>
      cases v with
      | inl tt => simp
      | inr st1 =>
        dsimp only
        have hh := twistLoopStep_inr switch turning nother st st1 hstep
        rcases le_total nother (-st.good) with hmin | hmin
        · rw [min_eq_left hmin] at hh
          exact ih st1 (by omega) (by omega)
        · rw [min_eq_right hmin] at hh
          exfalso
          omega

/-- C8 witness: the loop state of the left-turning doctest twist (three
bad twists on a side with three branches) exits within three
iterations. -/
theorem twist_loop_terminates_witness :
    twistLoop 3 1 SIDE_LEFT 3 ⟨ttBal, -3⟩ ≠ TwistLoopRes.fuelOut :=
  twist_loop_terminates 3 1 SIDE_LEFT 3 ⟨ttBal, -3⟩ (by decide) (by decide) (by decide)

/-- Changing an outgoing list does not touch the measure. -/
theorem set_outgoing_measure (tt : TT) (sw : Int) (l : List Int) :
    (tt.set_outgoing sw l).measure = tt.measure := rfl

/-- Changing an endpoint does not touch the measure. -/
theorem set_endpoint_measure (tt : TT) (b sw : Int) :
    (tt.set_endpoint b sw).measure = tt.measure := by
  unfold TT.set_endpoint; split <;> rfl

/-- Re-pointing a family of branches does not touch the measure. -/
theorem foldl_set_endpoint_measure (l : List Int) (sw : Int) (tt : TT) :
    (l.foldl (fun t b => t.set_endpoint (-b) sw) tt).measure = tt.measure := by
  induction l generalizing tt with
  | nil => rfl
  | cons a l ih => rw [List.foldl_cons, ih, set_endpoint_measure]

set_option maxHeartbeats 2000000 in
/-- The combinatorial re-threading never changes the measure array: every
mutation it performs is an adjacency or endpoint update. -/
theorem no_measure_preserves_measure (tt tt' : TT) (switch pos : Int)
    (uz ctype side : Nat)
    (h : tt.unzip_with_collapse_no_measure switch pos uz ctype side = .ok tt') :
    tt'.measure = tt.measure := by
  unfold TT.unzip_with_collapse_no_measure at h
  by_cases hc : ctype = C_UP
  · subst hc
    by_cases hs : side = SIDE_LEFT <;>
      simp only [hs, ite_true, ite_false, reduceIte, Bind.bind, Except.bind, pure, Except.pure,
        throw, throwThe, MonadExceptOf.throw] at h <;>
    · repeat' split at h
      all_goals (first
        | (injection h with h2; subst h2;
           simp only [set_outgoing_measure, set_endpoint_measure, foldl_set_endpoint_measure])
        | simp_all)
  · by_cases hc2 : ctype = C_TWO_SIDED
    · subst hc2
      by_cases hs : side = SIDE_LEFT <;>
        simp only [hs, ite_true, ite_false, reduceIte, Bind.bind, Except.bind, pure, Except.pure,
          throw, throwThe, MonadExceptOf.throw,
          show ¬(C_TWO_SIDED = C_UP) from by decide] at h <;>
      · repeat' split at h
        all_goals (first
          | (injection h with h2; subst h2;
             simp only [set_outgoing_measure, set_endpoint_measure, foldl_set_endpoint_measure])
          | simp_all)
    · simp only [hc, hc2, ite_false, reduceIte, Bind.bind, Except.bind, pure, Except.pure,
        throw, throwThe, MonadExceptOf.throw] at h
      repeat' split at h
      all_goals (first
        | (injection h with h2; subst h2; rfl)
        | simp_all)

/-- Specification of the unzip-position scan: it returns the first index
whose running sum of far-side measures exceeds the cut weight, splitting
the stopping branch's measure into the two returned parts. -/
theorem unzipPosScan_spec (ms : List Int) (w : Int) (k : Nat) (m1 m2 : Int)
    (h : unzipPosScan ms w = some (k, m1, m2)) :
    k < ms.length ∧
    (∀ j < k, ((ms.take (j+1)).sum) ≤ w) ∧
    w < (ms.take (k+1)).sum ∧
    m1 = w - (ms.take k).sum ∧ m2 = (ms.take (k+1)).sum - w := by
  induction ms generalizing w k m1 m2 with
  | nil => simp [unzipPosScan] at h
  | cons m rest ih =>
    rw [unzipPosScan] at h
    split at h
    · rename_i hw
      simp only [Option.some.injEq, Prod.mk.injEq] at h
      obtain ⟨hk, hm1, hm2⟩ := h
      subst hk; subst hm1; subst hm2
      refine ⟨by simp, by intro j hj; omega, by simpa using hw, by simp, by simp⟩
    · rename_i hw
      cases hs : unzipPosScan rest (w - m) with
      | none => rw [hs] at h; simp at h
      | some trip =>
        obtain ⟨k', m1', m2'⟩ := trip
        rw [hs] at h
        simp only [Option.map_some', Option.some.injEq, Prod.mk.injEq] at h
        obtain ⟨hk, hm1, hm2⟩ := h
        subst hk; subst hm1; subst hm2
        obtain ⟨s1, s2, s3, s4, s5⟩ := ih (w - m) k' m1' m2' hs
        refine ⟨by simpa using s1, ?_, ?_, ?_, ?_⟩
        · intro j hj
          cases j with
          | zero => simp; omega
          | succ j' =>
            rw [List.take_succ_cons, List.sum_cons]
            have := s2 j' (by omega)
            omega
        · rw [List.take_succ_cons, List.sum_cons]
          omega
        · rw [List.take_succ_cons, List.sum_cons]
          omega
        · rw [List.take_succ_cons, List.sum_cons]
          omega

/-- C1 (amended): on a measured track, every normally returning call of
`unzip_with_collapse` returns `some unzip_pos`, where `unzip_pos` is the
position selected by the measure comparison of step 1: the first index
`k` on the far side whose accumulated measure exceeds the weight carried
by the cut (`k = 0` is the branch adjacent to the start of the cut on
the far side -- for the TWO_SIDED collapse the pants branch -- and a
positive `k` means the cut travelled across `k` branches). -/
theorem unzip_with_collapse_returns_unzip_position (tt : TT) (switch : Int)
    (pos : Int) (ctype startSide : Nat) (tt' : TT) (r : Option Nat)
    (hm : tt.is_measured = true)
    (h : tt.unzip_with_collapse switch pos ctype startSide = .ok (tt', r)) :
    ∃ k m1 m2,
      tt.unzip_pos switch pos startSide = some (k, m1, m2) ∧
      r = some k ∧
      k < (farMeasures tt switch startSide).length ∧
      (∀ j < k, ((farMeasures tt switch startSide).take (j + 1)).sum
          ≤ cutWeight tt switch pos startSide) ∧
      cutWeight tt switch pos startSide
        < ((farMeasures tt switch startSide).take (k + 1)).sum := by
  unfold TT.unzip_with_collapse at h
  cases hup : tt.unzip_pos switch pos startSide with
  | none =>
    rw [hup] at h
    exact absurd h (by simp [throw, throwThe, MonadExceptOf.throw])
  | some trip =>
    obtain ⟨k, m1, m2⟩ := trip
    rw [hup] at h
    dsimp only at h
    cases hnm : tt.unzip_with_collapse_no_measure switch pos k ctype startSide with
    | error e =>
      rw [hnm] at h
      exact absurd h (by simp [Bind.bind, Except.bind])
    | ok tt1 =>
      rw [hnm] at h
      simp only [Bind.bind, Except.bind] at h
      have hms : tt1.measure = tt.measure := no_measure_preserves_measure _ _ _ _ _ _ _ hnm
      have hm1 : tt1.is_measured = true := by
        unfold TT.is_measured at hm ⊢
        rw [hms]; exact hm
      rw [if_neg (by simp [hm1])] at h
      simp only [pure, Except.pure, Except.ok.injEq, Prod.mk.injEq] at h
      obtain ⟨hk1, hk2⟩ := h
      have spec := unzipPosScan_spec (farMeasures tt switch startSide)
        (cutWeight tt switch pos startSide) k m1 m2 (by
          have := hup
          unfold TT.unzip_pos at this
          exact this)
      exact ⟨k, m1, m2, rfl, hk2.symm, spec.1, spec.2.1, spec.2.2.1⟩


/-- C1 witness: the UP-collapse doctest call on the measured track
returns exactly the computed unzip position (here 0). -/
theorem unzip_with_collapse_returns_unzip_position_witness :
    ∃ k m1 m2,
      ttMeasuredEx.unzip_pos 1 0 SIDE_LEFT = some (k, m1, m2) ∧
      (some 0 : Option Nat) = some k ∧
      k < (farMeasures ttMeasuredEx 1 SIDE_LEFT).length ∧
      (∀ j < k, ((farMeasures ttMeasuredEx 1 SIDE_LEFT).take (j + 1)).sum
          ≤ cutWeight ttMeasuredEx 1 0 SIDE_LEFT) ∧
      cutWeight ttMeasuredEx 1 0 SIDE_LEFT
        < ((farMeasures ttMeasuredEx 1 SIDE_LEFT).take (k + 1)).sum :=
  unzip_with_collapse_returns_unzip_position ttMeasuredEx 1 0 C_UP SIDE_LEFT
    ttAfterUP (some 0) (by decide) (by decide)
